import Mathlib

/-!
Verification of `air_message_web`'s TCP data-proxy layer
(`electron-renderer/connection/dataProxy.ts`) and of the manual
connection-configuration dialog
(`electron-renderer/components/private/ConnectionConfigDialog.tsx`).

JavaScript strings are modelled as `List Char`, byte sequences as
`List Nat` (each entry < 256 where it matters), and `NaN`-able JS
numbers as `Option Int` (`none` = `NaN`).
-/

namespace AirMessage

/-! ### Address parsing (`parseAddress` and `regexPort` in dataProxy.ts) -/

/-- The character class `[0-9]` of `regexPort`. -/
def isDig (c : Char) : Bool := 48 ≤ c.toNat && c.toNat ≤ 57

/-- Decimal value of a digit character (`'0'` ↦ 0, …, `'9'` ↦ 9). -/
def dv (c : Char) : Nat := c.toNat - 48

/-- The port alternation of `regexPort`:
`[0-9]{1,4}|[1-5][0-9]{4}|6[0-4][0-9]{3}|65[0-4][0-9]{2}|655[0-2][0-9]|6553[0-5]?`,
applied to the characters standing between the colon and the end of the
string.  Character classes are transcribed through `isDig`/`dv`. -/
def matchPortAlt (cs : List Char) : Bool :=
  (1 ≤ cs.length && cs.length ≤ 4 && cs.all isDig) ||
  (match cs with
   | [a, b, c, d, e] =>
       (isDig a && 1 ≤ dv a && dv a ≤ 5 && [b, c, d, e].all isDig) ||
       (isDig a && dv a = 6 && isDig b && dv b ≤ 4 && [c, d, e].all isDig) ||
       (isDig a && dv a = 6 && isDig b && dv b = 5 && isDig c && dv c ≤ 4 &&
         [d, e].all isDig) ||
       (isDig a && dv a = 6 && isDig b && dv b = 5 && isDig c && dv c = 5 &&
         isDig d && dv d ≤ 2 && isDig e) ||
       (isDig a && dv a = 6 && isDig b && dv b = 5 && isDig c && dv c = 5 &&
         isDig d && dv d = 3 && isDig e && dv e ≤ 5)
   | ['6', '5', '5', '3'] => true
   | _ => false)

/-- `regexPort.test(address)`: the pattern is anchored at the end of the
string (`$`), so the test succeeds exactly when some colon is followed,
up to the end of the string, by a string of the port alternation. -/
def regexPortTest : List Char → Bool
  | [] => false
  | c :: rest => (c = ':' && matchPortAlt rest) || regexPortTest rest

/-- `address.split(":")` (JavaScript `String.prototype.split` with a
one-character separator and no limit). -/
def splitOnColon : List Char → List (List Char)
  | [] => [[]]
  | c :: rest =>
    if c = ':' then [] :: splitOnColon rest
    else
      match splitOnColon rest with
      | [] => [[c]]
      | g :: gs => (c :: g) :: gs

/-- Accumulator-style decimal reading of a digit run, as JavaScript
`parseInt` does once it has isolated the leading digits. -/
def parseDigits : List Char → Nat → Nat
  | [], a => a
  | c :: rest, a => parseDigits rest (a * 10 + dv c)

/-- JavaScript whitespace skipped by `parseInt`. -/
def isJsSpace (c : Char) : Bool := c = ' ' || c = '\t' || c = '\n' || c = '\r'

/-- `parseInt(s)` (radix 10): skip leading whitespace, read an optional
sign, then the longest leading digit run; `NaN` (here `none`) when no
digit follows.  (The radix-16 autodetection of `parseInt` is irrelevant
here: it only fires on a leading `0x`, which never denotes a port.) -/
def parseIntJS (cs : List Char) : Option Int :=
  let cs := cs.dropWhile isJsSpace
  let signed : Bool × List Char :=
    match cs with
    | '-' :: rest => (true, rest)
    | '+' :: rest => (false, rest)
    | _ => (false, cs)
  let digits := signed.2.takeWhile isDig
  if digits.isEmpty then none
  else
    let n : Int := parseDigits digits 0
    some (if signed.1 then -n else n)

/-- `AddressData` from dataProxy.ts; `port` is a JS number, so `none`
stands for `NaN`. -/
structure AddressData where
  host : List Char
  port : Option Int
deriving DecidableEq, Repr

/-- `parseAddress` from dataProxy.ts:
if `regexPort.test(address)` then split on `":"` and take
`{host: split[0], port: parseInt(split[1])}` else
`{host: address, port: 1359}`. -/
def parseAddress (address : List Char) : AddressData :=
  if regexPortTest address then
    let split := splitOnColon address
    { host := split.headD [], port := parseIntJS (split.getD 1 []) }
  else
    { host := address, port := some 1359 }

/-! ### Lemmas about the address parser -/

theorem parseDigits_lt (cs : List Char) (h : cs.all isDig = true) :
    ∀ a, parseDigits cs a < (a + 1) * 10 ^ cs.length := by
  induction cs with
  | nil => intro a; simp [parseDigits]
  | cons c rest ih =>
    intro a
    simp only [List.all_cons, Bool.and_eq_true] at h
    have hc : 48 ≤ c.toNat ∧ c.toNat ≤ 57 := by
      have := h.1; simp [isDig] at this; exact this
    have hd : dv c ≤ 9 := by unfold dv; omega
    have step := ih h.2 (a * 10 + dv c)
    have h10 : (a * 10 + dv c + 1) * 10 ^ rest.length ≤ (a + 1) * 10 ^ (rest.length + 1) := by
      have : a * 10 + dv c + 1 ≤ (a + 1) * 10 := by omega
      calc (a * 10 + dv c + 1) * 10 ^ rest.length
          ≤ (a + 1) * 10 * 10 ^ rest.length := Nat.mul_le_mul_right _ this
        _ = (a + 1) * 10 ^ (rest.length + 1) := by ring
    calc parseDigits (c :: rest) a = parseDigits rest (a * 10 + dv c) := rfl
      _ < (a * 10 + dv c + 1) * 10 ^ rest.length := step
      _ ≤ (a + 1) * 10 ^ (rest.length + 1) := h10
      _ = (a + 1) * 10 ^ (c :: rest).length := by simp

/-- Every string of the port alternation is a nonempty digit string whose
decimal value is at most 65535. -/
theorem matchPortAlt_spec (cs : List Char) (h : matchPortAlt cs = true) :
    cs ≠ [] ∧ cs.all isDig = true ∧ parseDigits cs 0 ≤ 65535 := by
  have hdig : ∀ x : Char, isDig x = true → 48 ≤ x.toNat ∧ x.toNat ≤ 57 := by
    intro x hx; simpa [isDig] using hx
  unfold matchPortAlt at h
  rw [Bool.or_eq_true] at h
  rcases h with h | h
  · simp only [Bool.and_eq_true, decide_eq_true_eq] at h
    obtain ⟨⟨h1, h4⟩, hall⟩ := h
    refine ⟨?_, hall, ?_⟩
    · intro hnil; subst hnil; simp at h1
    · have hlt := parseDigits_lt cs hall 0
      have hle : 10 ^ cs.length ≤ 10 ^ 4 := Nat.pow_le_pow_right (by norm_num) h4
      simp only [Nat.one_mul] at hlt
      omega
  · split at h
    · rename_i a b c d e
      simp only [Bool.or_eq_true, Bool.and_eq_true, decide_eq_true_eq, List.all_cons,
        List.all_nil, Bool.and_true] at h
      have habcde : isDig a = true ∧ isDig b = true ∧ isDig c = true ∧
          isDig d = true ∧ isDig e = true := by tauto
      obtain ⟨ha, hb, hc, hd, he⟩ := habcde
      have hva := hdig a ha
      have hvb := hdig b hb
      have hvc := hdig c hc
      have hvd := hdig d hd
      have hve := hdig e he
      refine ⟨by simp, by simp [ha, hb, hc, hd, he], ?_⟩
      have hval : parseDigits [a, b, c, d, e] 0 =
          (((dv a * 10 + dv b) * 10 + dv c) * 10 + dv d) * 10 + dv e := by
        simp [parseDigits]
      rw [hval]
      simp only [dv] at *
      rcases h with ((((h | h) | h) | h) | h) <;> omega
    · refine ⟨by simp, by decide, by decide⟩
    · simp at h

theorem regexPortTest_of_no_colon (cs : List Char) (h : ':' ∉ cs) :
    regexPortTest cs = false := by
  induction cs with
  | nil => rfl
  | cons c rest ih =>
    simp only [List.mem_cons, not_or] at h
    have hc : ¬(c = ':') := fun he => h.1 he.symm
    simp [regexPortTest, hc, ih h.2]

theorem regexPortTest_append (pre post : List Char) (hpre : ':' ∉ pre) :
    regexPortTest (pre ++ ':' :: post) = (matchPortAlt post || regexPortTest post) := by
  induction pre with
  | nil => simp [regexPortTest]
  | cons c rest ih =>
    simp only [List.mem_cons, not_or] at hpre
    have hc : ¬(c = ':') := fun he => hpre.1 he.symm
    simp [regexPortTest, hc, ih hpre.2]

theorem splitOnColon_of_no_colon (cs : List Char) (h : ':' ∉ cs) :
    splitOnColon cs = [cs] := by
  induction cs with
  | nil => rfl
  | cons c rest ih =>
    simp only [List.mem_cons, not_or] at h
    have hc : ¬(c = ':') := fun he => h.1 he.symm
    simp [splitOnColon, hc, ih h.2]

theorem splitOnColon_append (pre post : List Char) (hpre : ':' ∉ pre) :
    splitOnColon (pre ++ ':' :: post) = pre :: splitOnColon post := by
  induction pre with
  | nil => simp [splitOnColon]
  | cons c rest ih =>
    simp only [List.mem_cons, not_or] at hpre
    have hc : ¬(c = ':') := fun he => hpre.1 he.symm
    simp [splitOnColon, hc, ih hpre.2]

theorem isJsSpace_of_digit (c : Char) (h : isDig c = true) : isJsSpace c = false := by
  rcases Bool.eq_false_or_eq_true (isJsSpace c) with ht | hf
  · exfalso
    simp only [isJsSpace] at ht
    simp only [Bool.or_eq_true, decide_eq_true_eq] at ht
    rcases ht with ((rfl | rfl) | rfl) | rfl <;> exact absurd h (by decide)
  · exact hf

theorem parseIntJS_digits (cs : List Char) (h1 : cs ≠ []) (h2 : cs.all isDig = true) :
    parseIntJS cs = some (parseDigits cs 0) := by
  obtain ⟨c, rest, rfl⟩ : ∃ c rest, cs = c :: rest := by
    cases cs with
    | nil => exact absurd rfl h1
    | cons c rest => exact ⟨c, rest, rfl⟩
  simp only [List.all_cons, Bool.and_eq_true] at h2
  have hdig : 48 ≤ c.toNat ∧ c.toNat ≤ 57 := by
    have := h2.1; simp [isDig] at this; exact this
  have hdrop : (c :: rest).dropWhile isJsSpace = c :: rest := by
    rw [List.dropWhile_cons, isJsSpace_of_digit c h2.1]
    simp
  have hneg : ¬(c = '-') := by rintro rfl; exact absurd hdig (by decide)
  have hplus : ¬(c = '+') := by rintro rfl; exact absurd hdig (by decide)
  have htake : (c :: rest).takeWhile isDig = c :: rest := by
    rw [List.takeWhile_eq_self_iff]
    intro a ha
    rcases List.mem_cons.mp ha with rfl | ha
    · exact h2.1
    · exact List.all_eq_true.mp h2.2 a ha
  simp [parseIntJS, hdrop, hneg, hplus, htake]

theorem parseAddress_valid (pre post : List Char) (hpre : ':' ∉ pre) (hpost : ':' ∉ post)
    (hm : matchPortAlt post = true) :
    parseAddress (pre ++ ':' :: post) = ⟨pre, some ((parseDigits post 0 : Nat) : Int)⟩ := by
  have htest : regexPortTest (pre ++ ':' :: post) = true := by
    rw [regexPortTest_append pre post hpre, hm]; rfl
  obtain ⟨hne, hall, _⟩ := matchPortAlt_spec post hm
  unfold parseAddress
  rw [htest]
  simp only [if_true]
  rw [splitOnColon_append pre post hpre, splitOnColon_of_no_colon post hpost]
  simp [parseIntJS_digits post hne hall]

theorem parseAddress_default (cs : List Char) (h : regexPortTest cs = false) :
    parseAddress cs = ⟨cs, some 1359⟩ := by
  simp [parseAddress, h]

theorem exists_colon_decomp (cs : List Char) (hmem : ':' ∈ cs) (hcount : cs.count ':' ≤ 1) :
    ∃ pre post, cs = pre ++ ':' :: post ∧ ':' ∉ pre ∧ ':' ∉ post := by
  induction cs with
  | nil => exact absurd hmem (by simp)
  | cons c rest ih =>
    rw [List.count_cons] at hcount
    by_cases hc : c = ':'
    · subst hc
      have h0 : rest.count ':' = 0 := by simp at hcount; omega
      have hnotin : ':' ∉ rest := List.count_eq_zero.mp h0
      exact ⟨[], rest, rfl, by simp, hnotin⟩
    · have hmem' : ':' ∈ rest := by
        rcases List.mem_cons.mp hmem with h | h
        · exact absurd h.symm hc
        · exact h
      have hcount' : rest.count ':' ≤ 1 := by
        have hz : (if (':' : Char) == c then 1 else 0) = 0 := by
          simp only [beq_iff_eq, ite_eq_right_iff]
          intro he; exact absurd he.symm hc
        omega
      obtain ⟨pre, post, heq, hp1, hp2⟩ := ih hmem' hcount'
      refine ⟨c :: pre, post, ?_, ?_, hp2⟩
      · rw [heq, List.cons_append]
      · simp only [List.mem_cons, not_or]
        exact ⟨fun h => hc h.symm, hp1⟩

/-! ### Claims C2 and C3 -/

/-- Claim C2, counterexample: `"a:b:2000"` carries the valid trailing port
suffix `":2000"`, so the claim demands
`{host: "a:b", port: 2000}`, but `parseAddress` splits on every colon and
returns `{host: "a", port: parseInt("b") = NaN}`. -/
theorem c2_counterexample :
    matchPortAlt ("2000".toList) = true ∧
    parseAddress ("a:b".toList ++ ':' :: "2000".toList) ≠
      ⟨"a:b".toList, some 2000⟩ := by decide

/-- Claim C2 (amended: the host part must itself be colon-free): for every
address of the form `host ++ ":" ++ port` where `host` contains no colon and
`port` matches the port pattern of `regexPort`, `parseAddress` returns
exactly that host and the decimal value of `port`; for every string on which
`regexPort` does not match, it returns the whole string as host together
with the default port 1359. -/
theorem c2_parse_address :
    (∀ pre post : List Char, ':' ∉ pre → matchPortAlt post = true →
      parseAddress (pre ++ ':' :: post) = ⟨pre, some ((parseDigits post 0 : Nat) : Int)⟩) ∧
    (∀ cs : List Char, regexPortTest cs = false → parseAddress cs = ⟨cs, some 1359⟩) := by
  constructor
  · intro pre post hpre hm
    have hpost : ':' ∉ post := by
      intro hmem
      have hall := (matchPortAlt_spec post hm).2.1
      have := List.all_eq_true.mp hall ':' hmem
      exact absurd this (by decide)
    exact parseAddress_valid pre post hpre hpost hm
  · exact parseAddress_default

/-- Witness for the amended C2, at the spec's own end-to-end examples
`"10.0.0.5:2000"` and `"relay.example.com"`. -/
theorem c2_parse_address_witness :
    parseAddress ("10.0.0.5:2000".toList) = ⟨"10.0.0.5".toList, some 2000⟩ ∧
    parseAddress ("relay.example.com".toList) = ⟨"relay.example.com".toList, some 1359⟩ := by
  constructor
  · have e : "10.0.0.5:2000".toList = "10.0.0.5".toList ++ ':' :: "2000".toList := by decide
    rw [e, c2_parse_address.1 ("10.0.0.5".toList) ("2000".toList) (by decide) (by decide)]
    decide
  · exact c2_parse_address.2 _ (by decide)

/-- Claim C3, counterexample: on `"a:99999:80"` the trailing `":80"` makes
`regexPort` match, but the port is taken from `parseInt` of the segment
between the first two colons, yielding 99999 — outside `[0, 65535]`. -/
theorem c3_counterexample :
    (parseAddress ("a:99999:80".toList)).port = some 99999 ∧
    ¬((99999 : Int) ≤ 65535) := by decide

/-- Claim C3 (amended: restricted to input strings containing at most one
colon): the port field of the returned address is an integer (never `NaN`)
in the range `[0, 65535]`. -/
theorem c3_port_range (cs : List Char) (h : cs.count ':' ≤ 1) :
    ∃ p : Int, (parseAddress cs).port = some p ∧ 0 ≤ p ∧ p ≤ 65535 := by
  by_cases hmem : ':' ∈ cs
  · obtain ⟨pre, post, rfl, hpre, hpost⟩ := exists_colon_decomp cs hmem h
    by_cases hm : matchPortAlt post = true
    · rw [parseAddress_valid pre post hpre hpost hm]
      obtain ⟨_, _, hle⟩ := matchPortAlt_spec post hm
      exact ⟨parseDigits post 0, rfl, Int.ofNat_nonneg _, by exact_mod_cast hle⟩
    · rw [Bool.not_eq_true] at hm
      have htest : regexPortTest (pre ++ ':' :: post) = false := by
        rw [regexPortTest_append pre post hpre, hm, regexPortTest_of_no_colon post hpost]
        rfl
      rw [parseAddress_default _ htest]
      exact ⟨1359, rfl, by norm_num, by norm_num⟩
  · rw [parseAddress_default cs (regexPortTest_of_no_colon cs hmem)]
    exact ⟨1359, rfl, by norm_num, by norm_num⟩

/-- Witness for the amended C3 at the single-colon input `"host:80"`. -/
theorem c3_port_range_witness :
    ∃ p : Int, (parseAddress ("host:80".toList)).port = some p ∧ 0 ≤ p ∧ p ≤ 65535 :=
  c3_port_range ("host:80".toList) (by decide)

/-! ### Wire framing (`writeSync` and the `readable` handler of dataProxy.ts) -/

/-- Big-endian byte quadruple of a 32-bit value, as `ByteBuffer.writeInt`
(big-endian by default) stores its 32-bit-truncated argument. -/
def be32 (n : Nat) : List Nat :=
  [n / 2 ^ 24 % 256, n / 2 ^ 16 % 256, n / 2 ^ 8 % 256, n % 256]

/-- `DataProxyTCP.writeSync`: `ByteBuffer.allocate(4 + 1 + data.byteLength)`,
`.writeInt(data.byteLength)` (32-bit big-endian), `.writeByte(isEncrypted ?
1 : 0)`, `.append(data)`; the whole backing buffer — exactly these
`4 + 1 + data.byteLength` bytes — is then handed to `socket.write`. -/
def writeSync (data : List Nat) (isEncrypted : Bool) : List Nat :=
  be32 (data.length % 2 ^ 32) ++ [if isEncrypted then 1 else 0] ++ data

/-- A `socket.write` call appends one contiguous frame to the sequence of
write calls, so two frames' bytes are never interleaved. -/
def writeFrame (calls : List (List Nat)) (data : List Nat) (isEncrypted : Bool) :
    List (List Nat) :=
  calls ++ [writeSync data isEncrypted]

/-- Unsigned big-endian reading of the first four bytes of a buffer. -/
def fromBE32 (l : List Nat) : Nat :=
  l.getD 0 0 * 2 ^ 24 + l.getD 1 0 * 2 ^ 16 + l.getD 2 0 * 2 ^ 8 + l.getD 3 0

/-- `Buffer.readInt32BE(0)`: signed 32-bit big-endian. -/
def readInt32BE (l : List Nat) : Int :=
  if fromBE32 l < 2 ^ 31 then (fromBE32 l : Int) else (fromBE32 l : Int) - 2 ^ 32

/-- `socket.read(n)` in paused mode: the first `n` buffered bytes when at
least `n` are available, `null` (`none`) otherwise.  Node's `read(0)`
always returns `null` (`stream.read(0)` is documented to return `null`;
it is only a mechanism to trigger a `readable` refresh). -/
def socketRead (n : Nat) (buf : List Nat) : Option (List Nat × List Nat) :=
  if 1 ≤ n ∧ n ≤ buf.length then some (buf.take n, buf.drop n) else none

/-- The `readable` handler's `while(true)` loop: with no `messageData`
pending, `read(4 + 1)` a header and record `size = readInt32BE(0)` and
`isEncrypted = data[4] !== 0`; with `messageData = (size, isEncrypted)`
pending, `read(size)` the payload and emit the message; a `null` read
breaks the loop.  The loop consumes at least one byte per successful read,
so running it with fuel `buf.length + 1` never hits the fuel bound; the
result is (messages emitted in order, (messageData, unconsumed bytes)). -/
def readLoop (fuel : Nat) (md : Option (Int × Bool)) (buf : List Nat) :
    List (List Nat × Bool) × (Option (Int × Bool) × List Nat) :=
  match fuel with
  | 0 => ([], (md, buf))
  | fuel + 1 =>
    match md with
    | none =>
      match socketRead 5 buf with
      | none => ([], (none, buf))
      | some (hdr, rest) =>
        readLoop fuel (some (readInt32BE hdr, hdr.getD 4 0 != 0)) rest
    | some (sz, enc) =>
      match socketRead sz.toNat buf with
      | none => ([], (some (sz, enc), buf))
      | some (payload, rest) =>
        let r := readLoop fuel none rest
        ((payload, enc) :: r.1, r.2)

/-- One `readable` event over buffered bytes `buf`, starting with no
pending `messageData`. -/
def runReadable (buf : List Nat) :
    List (List Nat × Bool) × (Option (Int × Bool) × List Nat) :=
  readLoop (buf.length + 1) none buf

/-! ### Lemmas about the framing -/

theorem fromBE32_be32 (n : Nat) (h : n < 2 ^ 32) (rest : List Nat) :
    fromBE32 (be32 n ++ rest) = n := by
  simp [fromBE32, be32]
  omega

theorem be32_length (n : Nat) : (be32 n).length = 4 := by simp [be32]

theorem writeSync_eq (p : List Nat) (f : Bool) (h : p.length < 2 ^ 32) :
    writeSync p f = (be32 p.length ++ [if f then 1 else 0]) ++ p := by
  unfold writeSync
  rw [Nat.mod_eq_of_lt h]

theorem writeSync_length (p : List Nat) (f : Bool) :
    (writeSync p f).length = 5 + p.length := by
  simp [writeSync, be32]
  omega

theorem socketRead_frame (p : List Nat) (f : Bool) (h : p.length < 2 ^ 32) :
    socketRead 5 (writeSync p f) = some (be32 p.length ++ [if f then 1 else 0], p) := by
  have hlen5 : (be32 p.length ++ [if f then 1 else 0]).length = 5 := by simp [be32]
  rw [writeSync_eq p f h]
  unfold socketRead
  rw [if_pos ⟨by norm_num, by simp [be32]⟩]
  rw [← hlen5, List.take_left, List.drop_left]

/-- Parsing one full frame `be32 L ++ b :: p` (with `L = p.length`,
`1 ≤ L < 2^31`) yields exactly one message `(p, b ≠ 0)` and leaves the
parser idle. -/
theorem readLoop_frame (L b : Nat) (p : List Nat) (fu : Nat) (hL : L = p.length)
    (h1 : 1 ≤ L) (h2 : L < 2 ^ 31) :
    readLoop (fu + 3) none (be32 L ++ b :: p) = ([(p, b != 0)], (none, [])) := by
  subst hL
  have h32 : p.length < 2 ^ 32 := by omega
  have hlen5 : (be32 p.length ++ [b]).length = 5 := by simp [be32]
  have hread5 : socketRead 5 (be32 p.length ++ b :: p) = some (be32 p.length ++ [b], p) := by
    unfold socketRead
    have hassoc : be32 p.length ++ b :: p = (be32 p.length ++ [b]) ++ p := by simp
    rw [hassoc, if_pos ⟨by norm_num, by simp [be32]⟩, ← hlen5, List.take_left,
      List.drop_left]
  have hint : readInt32BE (be32 p.length ++ [b]) = (p.length : Int) := by
    unfold readInt32BE
    rw [fromBE32_be32 p.length h32]
    rw [if_pos (by exact_mod_cast h2)]
  have hflag : (be32 p.length ++ [b]).getD 4 0 = b := by simp [be32]
  have hreadp : socketRead ((p.length : Int)).toNat p = some (p, []) := by
    unfold socketRead
    rw [Int.toNat_natCast]
    rw [if_pos ⟨h1, le_refl _⟩, List.take_length, List.drop_length]
  have step1 : readLoop (fu + 3) none (be32 p.length ++ b :: p) =
      readLoop (fu + 2) (some ((p.length : Int), b != 0)) p := by
    rw [readLoop, hread5]
    simp only [hint, hflag]
  have step3 : readLoop (fu + 1) none ([] : List Nat) = ([], (none, [])) := by
    rw [readLoop]
    simp [socketRead]
  have step2 : readLoop (fu + 2) (some ((p.length : Int), b != 0)) p =
      ([(p, b != 0)], (none, [])) := by
    rw [readLoop, hreadp]
    simp only [step3]
  rw [step1, step2]

/-- Parsing a bare header `be32 L ++ [b]` (with `1 ≤ L < 2^31`) consumes
the header and records `(L, b ≠ 0)` before any payload byte is read. -/
theorem readLoop_header (L b : Nat) (fu : Nat) (h1 : 1 ≤ L) (h2 : L < 2 ^ 31) :
    readLoop (fu + 2) none (be32 L ++ [b]) = ([], (some ((L : Int), b != 0), [])) := by
  have h32 : L < 2 ^ 32 := by omega
  have hlen5 : (be32 L ++ [b]).length = 5 := by simp [be32]
  have hread5 : socketRead 5 (be32 L ++ [b]) = some (be32 L ++ [b], []) := by
    unfold socketRead
    rw [if_pos ⟨by norm_num, by simp [hlen5]⟩, ← hlen5, List.take_length, List.drop_length]
  have hint : readInt32BE (be32 L ++ [b]) = (L : Int) := by
    unfold readInt32BE
    rw [fromBE32_be32 L h32]
    rw [if_pos (by exact_mod_cast h2)]
  have hflag : (be32 L ++ [b]).getD 4 0 = b := by simp [be32]
  have hreadp : socketRead ((L : Int)).toNat ([] : List Nat) = none := by
    unfold socketRead
    rw [Int.toNat_natCast]
    rw [if_neg (by simp; omega)]
  have step1 : readLoop (fu + 2) none (be32 L ++ [b]) =
      readLoop (fu + 1) (some ((L : Int), b != 0)) [] := by
    rw [readLoop, hread5]
    simp only [hint, hflag]
  have step2 : readLoop (fu + 1) (some ((L : Int), b != 0)) ([] : List Nat) =
      ([], (some ((L : Int), b != 0), [])) := by
    rw [readLoop, hreadp]
  rw [step1, step2]

/-! ### Claims C4, C5 and C10 -/

/-- Claim C5: every frame written by `writeSync` is a single contiguous
byte sequence of length `5 + payload length`; its first four bytes are the
payload length as a big-endian uint32 (header excluded from the count), its
fifth byte is 1 when encrypted and 0 otherwise, the rest is the payload;
and the frame is appended to the socket as one write call, so two frames'
bytes never interleave. -/
theorem c5_frame_layout (data : List Nat) (f : Bool) (calls : List (List Nat))
    (h : data.length < 2 ^ 32) :
    (writeSync data f).length = 5 + data.length ∧
    fromBE32 ((writeSync data f).take 4) = data.length ∧
    (writeSync data f).getD 4 0 = (if f then 1 else 0) ∧
    (writeSync data f).drop 5 = data ∧
    writeFrame calls data f = calls ++ [writeSync data f] := by
  have hlen4 : (be32 data.length).length = 4 := be32_length _
  have hlen5 : (be32 data.length ++ [if f then 1 else 0]).length = 5 := by simp [be32]
  refine ⟨writeSync_length data f, ?_, ?_, ?_, rfl⟩
  · rw [writeSync_eq data f h, List.append_assoc, ← hlen4, List.take_left,
      ← List.append_nil (be32 data.length)]
    exact fromBE32_be32 data.length h []
  · rw [writeSync_eq data f h]
    simp [be32]
  · rw [writeSync_eq data f h, ← hlen5, List.drop_left]

/-- Witness for C5 at the concrete frame `writeSync [7, 8] true`. -/
theorem c5_frame_layout_witness :
    (writeSync [7, 8] true).length = 5 + 2 ∧
    fromBE32 ((writeSync [7, 8] true).take 4) = 2 ∧
    (writeSync [7, 8] true).getD 4 0 = 1 ∧
    (writeSync [7, 8] true).drop 5 = [7, 8] ∧
    writeFrame [[9]] [7, 8] true = [[9]] ++ [writeSync [7, 8] true] :=
  c5_frame_layout [7, 8] true [[9]] (by norm_num)

/-- Claim C4, counterexample: the round trip fails for the empty payload.
`writeSync [] false` produces the five header bytes, the read side consumes
the header, but `socket.read(0)` returns `null`, so the loop stalls: zero
messages are delivered instead of the one empty message the claim
demands. -/
theorem c4_counterexample :
    writeSync [] false = [0, 0, 0, 0, 0] ∧
    runReadable (writeSync [] false) = ([], (some (0, false), [])) ∧
    ([] : List (List Nat × Bool)) ≠ [([], false)] := by decide

/-- Claim C4 (amended: payload length `L` restricted to `1 ≤ L < 2^31`; the
empty payload stalls the reader on `read(0)`, and the length field is a
signed 32-bit integer on the read side): encoding a payload with
`writeSync` and feeding the bytes to the read-side parser yields exactly
one message carrying the original payload and encryption flag, and leaves
the parser idle with no unconsumed bytes. -/
theorem c4_roundtrip (p : List Nat) (f : Bool) (h1 : p ≠ []) (h2 : p.length < 2 ^ 31) :
    runReadable (writeSync p f) = ([(p, f)], (none, [])) := by
  have hL1 : 1 ≤ p.length := List.length_pos.mpr h1
  have h32 : p.length < 2 ^ 32 := by omega
  have hfuel : (writeSync p f).length + 1 = (p.length + 3) + 3 := by
    rw [writeSync_length]; omega
  have hsingle : writeSync p f = be32 p.length ++ (if f then 1 else 0) :: p := by
    rw [writeSync_eq p f h32, List.append_assoc, List.singleton_append]
  have hb : ((if f then (1 : Nat) else 0) != 0) = f := by cases f <;> rfl
  unfold runReadable
  rw [hfuel, hsingle, readLoop_frame p.length (if f then 1 else 0) p (p.length + 3) rfl hL1 h2,
    hb]

/-- Witness for the amended C4 at payload `[42]`, flag `true`. -/
theorem c4_roundtrip_witness :
    runReadable (writeSync [42] true) = ([([42], true)], (none, [])) :=
  c4_roundtrip [42] true (by decide) (by norm_num)

/-- Claim C10: the read side treats an inbound frame as encrypted iff its
flag byte is nonzero (any nonzero value, not only 1), and the flag byte is
interpreted from the header before the payload is consumed (a header-only
buffer already determines the flag while the payload is still unread); on
the write side the emitted flag byte is exactly 1 or 0. -/
theorem c10_flag_semantics (L b : Nat) (p : List Nat) (q : List Nat) (g : Bool)
    (hL : L = p.length) (h1 : 1 ≤ L) (h2 : L < 2 ^ 31) :
    runReadable (be32 L ++ b :: p) = ([(p, b != 0)], (none, [])) ∧
    runReadable (be32 L ++ [b]) = ([], (some ((L : Int), b != 0), [])) ∧
    (writeSync q g).getD 4 0 = (if g then 1 else 0) := by
  refine ⟨?_, ?_, ?_⟩
  · have hfuel : (be32 L ++ b :: p).length + 1 = (p.length + 3) + 3 := by
      simp [be32]
    unfold runReadable
    rw [hfuel, readLoop_frame L b p (p.length + 3) hL h1 h2]
  · have hfuel : (be32 L ++ [b]).length + 1 = 4 + 2 := by simp [be32]
    unfold runReadable
    rw [hfuel, readLoop_header L b 4 h1 h2]
  · unfold writeSync
    simp [be32]

/-- Witness for C10: frame with flag byte 2 (nonzero but ≠ 1) is decrypted
as encrypted; a bare header already records the flag; `writeSync` emits
flag byte 0 when unencrypted. -/
theorem c10_flag_semantics_witness :
    runReadable (be32 1 ++ 2 :: [9]) = ([([9], (2 != 0))], (none, [])) ∧
    runReadable (be32 1 ++ [2]) = ([], (some ((1 : Int), (2 != 0)), [])) ∧
    (writeSync [9] false).getD 4 0 = (if false then 1 else 0) :=
  c10_flag_semantics 1 2 [9] [9] false rfl (by norm_num) (by norm_num)

/-! ### Transport lifecycle (`DataProxyTCP` in dataProxy.ts) -/

/-- The `AddressOverride` interface of dataProxy.ts: a primary address
string and an optional fallback address string. -/
structure AddressOverride where
  primary : List Char
  fallback : Option (List Char)

/-- The secure-storage keys used by dataProxy.ts and the configuration
dialog. -/
inductive SecureStorageKey where
  | serverAddress
  | serverAddressFallback
  | serverPassword
deriving DecidableEq, Repr

/-- Notifications a `DataProxy` delivers to its owner: `notifyOpen()` on
connect, `notifyClose(ConnectionErrorCode.Connection)` on failure or
close. -/
inductive Notification where
  | openEvent
  | closeConnection
deriving DecidableEq, Repr

/-- Observable state of a `DataProxyTCP`: the `isStopping` flag, the
fallback address resolved by `start()`, the `socket.connect` calls made so
far (in order) and the notifications delivered to the owner (in order). -/
structure TransportState where
  isStopping : Bool
  addressSecondary : Option AddressData
  connects : List AddressData
  notifs : List Notification
deriving DecidableEq, Repr

/-- `new DataProxyTCP(override)`: the constructor initialises
`isStopping = false` and neither connects nor notifies. -/
def mkProxy : TransportState := ⟨false, none, [], []⟩

/-- `DataProxyTCP.start()` up to its first `socket.connect`: it assigns
`this.isStopping = true` (the comment above the line says "Resetting the
isStopping flag", but the assignment is `true`), resolves the primary and
fallback addresses from the override (a falsy — e.g. empty — fallback
string yields `undefined`) or else from secure storage (an absent stored
primary address produces `notifyClose(ConnectionErrorCode.Connection)` and
an early return), then calls `socket.connect` on the primary address. -/
def startFn (override : Option AddressOverride)
    (storage : SecureStorageKey → Option (List Char)) (s : TransportState) :
    TransportState :=
  let s := { s with isStopping := true }
  match override with
  | some ov =>
    let addressPrimary := parseAddress ov.primary
    let addressSecondary :=
      match ov.fallback with
      | some fb => if fb.isEmpty then none else some (parseAddress fb)
      | none => none
    { s with addressSecondary := addressSecondary,
             connects := s.connects ++ [addressPrimary] }
  | none =>
    match storage SecureStorageKey.serverAddress with
    | none => { s with notifs := s.notifs ++ [Notification.closeConnection] }
    | some str =>
      let addressPrimary := parseAddress str
      let addressSecondary :=
        (storage SecureStorageKey.serverAddressFallback).map parseAddress
      { s with addressSecondary := addressSecondary,
               connects := s.connects ++ [addressPrimary] }

/-- The socket `close` handler registered by `start()`: connect to the
fallback when `!this.isStopping && addressSecondary`, otherwise
`notifyClose(ConnectionErrorCode.Connection)`. -/
def onCloseEvent (s : TransportState) : TransportState :=
  match s.isStopping, s.addressSecondary with
  | false, some a => { s with connects := s.connects ++ [a] }
  | _, _ => { s with notifs := s.notifs ++ [Notification.closeConnection] }

/-- The socket `connect` handler registered by `start()`: `notifyOpen()`. -/
def onConnectEvent (s : TransportState) : TransportState :=
  { s with notifs := s.notifs ++ [Notification.openEvent] }

/-- `DataProxyTCP.stop()`: sets the `isStopping` flag, then ends and
destroys the socket (which later fires the close handler). -/
def stopFn (s : TransportState) : TransportState :=
  { s with isStopping := true }

/-! ### Claims C1, C7 and C8 -/

/-- Claim C1 (code bug): with a primary and a fallback override configured
and no `stop()` call, a socket close right after `start()` does NOT
attempt the fallback.  `start()` assigns `isStopping = true` — its comment
says "Resetting the isStopping flag" and the constructor initialises the
flag to `false`, so the intended assignment is `false` — which makes the
close handler's fallback branch unreachable: the only connect attempt is
the primary one, and the owner is immediately notified of a connection
failure, contradicting the claim's "attempts the fallback exactly once". -/
theorem c1_no_fallback_attempt :
    onCloseEvent (startFn
        (some ⟨"10.0.0.5:2000".toList, some ("10.0.0.6:2000".toList)⟩)
        (fun _ => none) mkProxy) =
      { isStopping := true,
        addressSecondary := some ⟨"10.0.0.6".toList, some 2000⟩,
        connects := [⟨"10.0.0.5".toList, some 2000⟩],
        notifs := [Notification.closeConnection] } := by decide

/-- Claim C7: once `stop()` has set the `isStopping` flag, a subsequent
close event performs no fallback or reconnection attempt (the connect
list is unchanged, whatever the state) and the close is reported to the
owner through `notifyClose`. -/
theorem c7_stop_suppresses_fallback (s : TransportState) :
    (onCloseEvent (stopFn s)).connects = s.connects ∧
    (onCloseEvent (stopFn s)).notifs = s.notifs ++ [Notification.closeConnection] := by
  unfold onCloseEvent stopFn
  exact ⟨rfl, rfl⟩

/-- Claim C8: with no override configured and secure storage lacking the
primary server address, `start()` reports a connection failure
(`notifyClose(ConnectionErrorCode.Connection)`) and returns without ever
calling `socket.connect`. -/
theorem c8_missing_address (storage : SecureStorageKey → Option (List Char))
    (h : storage SecureStorageKey.serverAddress = none) :
    startFn none storage mkProxy =
      { isStopping := true, addressSecondary := none, connects := [],
        notifs := [Notification.closeConnection] } := by
  unfold startFn mkProxy
  rw [h]
  rfl

/-- Witness for C8 with an entirely empty secure storage. -/
theorem c8_missing_address_witness :
    startFn none (fun _ => none) mkProxy =
      { isStopping := true, addressSecondary := none, connects := [],
        notifs := [Notification.closeConnection] } :=
  c8_missing_address (fun _ => none) rfl

/-! ### Manual configuration dialog (ConnectionConfigDialog.tsx) -/

/-- Externally observable calls the dialog's handlers make, in program
order.  `setDisableAutomaticReconnections` is the caller-settable flag of
the connection manager that suppresses automatic reconnection. -/
inductive DialogAction where
  | setDataProxy
  | setDisableAutomaticReconnections (value : Bool)
  | setCryptoPassword
  | setSecureStorage (key : SecureStorageKey)
  | connect
  | onApplyConfig
  | setConnectionState
deriving DecidableEq, Repr

/-- `submitForm`: after `preventDefault`, return immediately when the
input is invalid; otherwise install the data proxy, set the
suppress-automatic-reconnections flag to `true`, start the four storage
writes (`setCryptoPassword` plus three `setSecureLS` calls, in array
order) and call `ConnectionManager.connect()` once all of them have
completed. -/
def submitForm (inputValid : Bool) : List DialogAction :=
  if inputValid then
    [DialogAction.setDataProxy,
     DialogAction.setDisableAutomaticReconnections true,
     DialogAction.setCryptoPassword,
     DialogAction.setSecureStorage SecureStorageKey.serverAddress,
     DialogAction.setSecureStorage SecureStorageKey.serverAddressFallback,
     DialogAction.setSecureStorage SecureStorageKey.serverPassword,
     DialogAction.connect]
  else []

/-- `finish` (the Done button): set the suppress-automatic-reconnections
flag back to `false`, then invoke the `onApplyConfig` callback. -/
def finishDialog : List DialogAction :=
  [DialogAction.setDisableAutomaticReconnections false, DialogAction.onApplyConfig]

/-- The dialog's `ConnectionListener` handlers only update the local
connection-state display. -/
def listenerOnConnecting : List DialogAction := [DialogAction.setConnectionState]

/-- See `listenerOnConnecting`. -/
def listenerOnOpen : List DialogAction := [DialogAction.setConnectionState]

/-- See `listenerOnConnecting`. -/
def listenerOnClose : List DialogAction := [DialogAction.setConnectionState]

/-! ### Claim C9 -/

/-- Claim C9: submitting the configuration form sets the
suppress-automatic-reconnections flag to `true` strictly before `connect`
is invoked (and with invalid input neither happens); the flag is set back
to `false` only by `finish` — no other handler of the dialog ever emits
`setDisableAutomaticReconnections false`. -/
theorem c9_reconnect_suppression :
    (submitForm true).indexOf (DialogAction.setDisableAutomaticReconnections true) <
      (submitForm true).indexOf DialogAction.connect ∧
    DialogAction.setDisableAutomaticReconnections true ∈ submitForm true ∧
    DialogAction.connect ∈ submitForm true ∧
    submitForm false = [] ∧
    DialogAction.setDisableAutomaticReconnections false ∉ submitForm true ∧
    DialogAction.setDisableAutomaticReconnections false ∉ submitForm false ∧
    finishDialog.head? = some (DialogAction.setDisableAutomaticReconnections false) ∧
    DialogAction.setDisableAutomaticReconnections false ∈ finishDialog ∧
    DialogAction.setDisableAutomaticReconnections false ∉ listenerOnConnecting ∧
    DialogAction.setDisableAutomaticReconnections false ∉ listenerOnOpen ∧
    DialogAction.setDisableAutomaticReconnections false ∉ listenerOnClose := by
  decide

/-! ### Outbound send ordering (`DataProxyTCP.send`)

`send(data, encrypt)` serialises its writes through the
`this.previousEncrypt` promise chain:

* first call, `encrypt = true`: `previousEncrypt` is set to the raw
  `encryptData` promise and `writeSync` runs in the `await` continuation
  attached to it;
* first call, `encrypt = false`: `writeSync` runs synchronously and
  `previousEncrypt` stays `undefined`;
* later calls: `previousEncrypt = previousEncrypt.then(cb)` where `cb`
  starts (and awaits) the frame's own `encryptData` before its
  `writeSync`.

The model is a small promise/microtask machine.  Promises are store
indices holding either a FIFO list of pending reactions or `resolved`;
resolving a promise appends its reactions to the FIFO microtask queue, and
attaching a reaction to an already-resolved promise enqueues it directly
(JavaScript job-queue semantics).  `encryptData` promises are resolved by
external events at arbitrary points, which models arbitrary relative
completion latencies of the encrypt operations.  The resolution of a
`.then`-result promise is collapsed into the completion of its callback;
this only removes stuttering microtasks, not any write reordering. -/

/-- A promise reaction: `wcont i q` is the continuation of send `i`'s
`await` on its `encryptData` promise (run `writeSync` for frame `i`, then
resolve chain promise `q`); `link i f q` is the `.then` callback chained
for send `i` with encrypt flag `f`, resolving chain promise `q` when
done. -/
inductive Reaction where
  | wcont (i : Nat) (q : Option Nat)
  | link (i : Nat) (f : Bool) (q : Nat)
deriving DecidableEq, Repr

/-- A promise: pending with its attached reactions in attachment order, or
resolved. -/
inductive PState where
  | pending (rs : List Reaction)
  | resolved
deriving DecidableEq, Repr

/-- State of the send machine: `sub` the send calls not yet made (their
encrypt flags, in call order), `idx` the index of the next send, `prev`
the promise held by `this.previousEncrypt`, `store` the promise store,
`micro` the microtask queue, `encs` the outstanding `encryptData`
promises, `trace` the frame indices in `writeSync` order. -/
structure SendMachine where
  sub : List Bool
  idx : Nat
  prev : Option Nat
  store : List PState
  micro : List Reaction
  encs : List Nat
  trace : List Nat
deriving DecidableEq, Repr

/-- Look a promise up; out-of-range ids never occur. -/
def getP (store : List PState) (p : Nat) : PState := store.getD p PState.resolved

/-- Attach a reaction to promise `p`: queue it on `p` when pending,
enqueue it as a microtask when `p` is already resolved. -/
def attach (m : SendMachine) (p : Nat) (r : Reaction) : SendMachine :=
  match getP m.store p with
  | PState.pending rs => { m with store := m.store.set p (PState.pending (rs ++ [r])) }
  | PState.resolved => { m with micro := m.micro ++ [r] }

/-- Resolve promise `p`: its reactions move to the microtask queue in
attachment order. -/
def resolveP (m : SendMachine) (p : Nat) : SendMachine :=
  match getP m.store p with
  | PState.pending rs =>
    { m with store := m.store.set p PState.resolved, micro := m.micro ++ rs }
  | PState.resolved => m

/-- The synchronous prefix of the next `send` call, following the source:
with no `previousEncrypt`, an encrypted send starts `encryptData`, stores
that raw promise in `previousEncrypt` and awaits it (reaction `wcont i
none` — nothing awaits the `async send`'s own result), while an
unencrypted send calls `writeSync` at once and leaves `previousEncrypt`
unset; otherwise `previousEncrypt = previousEncrypt.then(cb)` chains
callback `link i f q` and `previousEncrypt` becomes the new chain promise
`q`. -/
def stepSubmit (m : SendMachine) : SendMachine :=
  match m.sub with
  | [] => m
  | f :: rest =>
    let i := m.idx
    let m1 : SendMachine := { m with sub := rest, idx := i + 1 }
    match m1.prev with
    | none =>
      if f then
        let e := m1.store.length
        { m1 with store := m1.store ++ [PState.pending [Reaction.wcont i none]],
                  encs := m1.encs ++ [e], prev := some e }
      else
        { m1 with trace := m1.trace ++ [i] }
    | some p =>
      let q := m1.store.length
      let m2 : SendMachine := { m1 with store := m1.store ++ [PState.pending []],
                                        prev := some q }
      attach m2 p (Reaction.link i f q)

/-- Run the oldest microtask: a `wcont i q` writes frame `i` and resolves
`q`; a `link i f q` either starts the frame's `encryptData` (with `wcont i
(some q)` attached as its `await` continuation) when `f`, or writes frame
`i` and resolves `q` at once. -/
def stepMicro (m : SendMachine) : SendMachine :=
  match m.micro with
  | [] => m
  | r :: rest =>
    let m1 : SendMachine := { m with micro := rest }
    match r with
    | Reaction.wcont i q =>
      let m2 : SendMachine := { m1 with trace := m1.trace ++ [i] }
      match q with
      | none => m2
      | some q => resolveP m2 q
    | Reaction.link i f q =>
      if f then
        let e := m1.store.length
        { m1 with store := m1.store ++ [PState.pending [Reaction.wcont i (some q)]],
                  encs := m1.encs ++ [e] }
      else
        resolveP { m1 with trace := m1.trace ++ [i] } q

/-- An `encryptData` operation completes (external event): its promise
resolves.  At most one encrypt is ever outstanding here (the chain starts
each frame's encryption inside its own link), so resolving the oldest
loses no behaviour. -/
def stepEnc (m : SendMachine) : SendMachine :=
  match m.encs with
  | [] => m
  | e :: rest => resolveP { m with encs := rest } e

/-- A scheduler choice: make the next `send` call, run a microtask, or
complete an outstanding `encryptData`. -/
inductive Choice where
  | submit
  | runMicro
  | completeEncrypt
deriving DecidableEq, Repr

/-- One scheduler step (no-op when the chosen queue is empty). -/
def step (c : Choice) (m : SendMachine) : SendMachine :=
  match c with
  | Choice.submit => stepSubmit m
  | Choice.runMicro => stepMicro m
  | Choice.completeEncrypt => stepEnc m

/-- A fresh `DataProxyTCP` about to make the given `send` calls. -/
def initMachine (flags : List Bool) : SendMachine :=
  ⟨flags, 0, none, [], [], [], []⟩

/-- Run a schedule. -/
def runMachine (cs : List Choice) (m : SendMachine) : SendMachine :=
  match cs with
  | [] => m
  | c :: rest => runMachine rest (step c m)

/-- Reachable states for two sends with flags `false, false`. -/
def reach00 : List SendMachine :=
  [⟨[false, false], 0, none, [], [], [], []⟩,
   ⟨[false], 1, none, [], [], [], [0]⟩,
   ⟨[], 2, none, [], [], [], [0, 1]⟩]

/-- Reachable states for two sends with flags `false, true`. -/
def reach01 : List SendMachine :=
  [⟨[false, true], 0, none, [], [], [], []⟩,
   ⟨[true], 1, none, [], [], [], [0]⟩,
   ⟨[], 2, some 0, [PState.pending [Reaction.wcont 1 none]], [], [0], [0]⟩,
   ⟨[], 2, some 0, [PState.resolved], [Reaction.wcont 1 none], [], [0]⟩,
   ⟨[], 2, some 0, [PState.resolved], [], [], [0, 1]⟩]

/-- Reachable states for two sends with flags `true, false`. -/
def reach10 : List SendMachine :=
  [⟨[true, false], 0, none, [], [], [], []⟩,
   ⟨[false], 1, some 0, [PState.pending [Reaction.wcont 0 none]], [], [0], []⟩,
   ⟨[], 2, some 1,
     [PState.pending [Reaction.wcont 0 none, Reaction.link 1 false 1], PState.pending []],
     [], [0], []⟩,
   ⟨[false], 1, some 0, [PState.resolved], [Reaction.wcont 0 none], [], []⟩,
   ⟨[], 2, some 1, [PState.resolved, PState.pending []],
     [Reaction.wcont 0 none, Reaction.link 1 false 1], [], []⟩,
   ⟨[false], 1, some 0, [PState.resolved], [], [], [0]⟩,
   ⟨[], 2, some 1, [PState.resolved, PState.pending []], [Reaction.link 1 false 1], [], [0]⟩,
   ⟨[], 2, some 1, [PState.resolved, PState.resolved], [], [], [0, 1]⟩]

/-- Reachable states for two sends with flags `true, true`. -/
def reach11 : List SendMachine :=
  [⟨[true, true], 0, none, [], [], [], []⟩,
   ⟨[true], 1, some 0, [PState.pending [Reaction.wcont 0 none]], [], [0], []⟩,
   ⟨[], 2, some 1,
     [PState.pending [Reaction.wcont 0 none, Reaction.link 1 true 1], PState.pending []],
     [], [0], []⟩,
   ⟨[true], 1, some 0, [PState.resolved], [Reaction.wcont 0 none], [], []⟩,
   ⟨[], 2, some 1, [PState.resolved, PState.pending []],
     [Reaction.wcont 0 none, Reaction.link 1 true 1], [], []⟩,
   ⟨[true], 1, some 0, [PState.resolved], [], [], [0]⟩,
   ⟨[], 2, some 1, [PState.resolved, PState.pending []], [Reaction.link 1 true 1], [], [0]⟩,
   ⟨[], 2, some 1,
     [PState.resolved, PState.pending [], PState.pending [Reaction.wcont 1 (some 1)]],
     [], [2], [0]⟩,
   ⟨[], 2, some 1, [PState.resolved, PState.pending [], PState.resolved],
     [Reaction.wcont 1 (some 1)], [], [0]⟩,
   ⟨[], 2, some 1, [PState.resolved, PState.resolved, PState.resolved], [], [], [0, 1]⟩]

/-- The set of machine states reachable from two sends with the given
flags. -/
def reachSet (f0 f1 : Bool) : List SendMachine :=
  match f0, f1 with
  | false, false => reach00
  | false, true => reach01
  | true, false => reach10
  | true, true => reach11

theorem reachSet_closed (f0 f1 : Bool) (c : Choice) :
    ∀ m ∈ reachSet f0 f1, step c m ∈ reachSet f0 f1 := by
  cases f0 <;> cases f1 <;> cases c <;> decide

theorem initMachine_mem (f0 f1 : Bool) : initMachine [f0, f1] ∈ reachSet f0 f1 := by
  cases f0 <;> cases f1 <;> decide

theorem runMachine_mem (cs : List Choice) (f0 f1 : Bool) (m : SendMachine)
    (hm : m ∈ reachSet f0 f1) : runMachine cs m ∈ reachSet f0 f1 := by
  induction cs generalizing m with
  | nil => exact hm
  | cons c rest ih => exact ih _ (reachSet_closed f0 f1 c m hm)

theorem reachSet_trace (f0 f1 : Bool) :
    ∀ m ∈ reachSet f0 f1, m.trace = [] ∨ m.trace = [0] ∨ m.trace = [0, 1] := by
  cases f0 <;> cases f1 <;> decide

/-! ### Claim C6 -/

/-- Claim C6: for two calls `send(A)` then `send(B)` on the same transport
instance (frame indices 0 and 1), with any combination of encryption flags
and any relative completion latencies of the asynchronous encrypt
operations — i.e. under every schedule of submissions, microtasks and
`encryptData` completions — the `writeSync` trace is always a prefix of
`[0, 1]`: frame A's bytes are written to the socket before frame B's. -/
theorem c6_send_order (f0 f1 : Bool) (cs : List Choice) :
    (runMachine cs (initMachine [f0, f1])).trace = [] ∨
    (runMachine cs (initMachine [f0, f1])).trace = [0] ∨
    (runMachine cs (initMachine [f0, f1])).trace = [0, 1] :=
  reachSet_trace f0 f1 _ (runMachine_mem cs f0 f1 _ (initMachine_mem f0 f1))

end AirMessage
